import Mathlib

/-!
Verification of the image transcoding / caching / compression middleware of
`web-speed-hackathon-2024` (file `workspaces/server/src/middlewares/compressMiddleware.ts`,
plus `cacheControlMiddleware`).  The TypeScript code is shallowly embedded below:
pure functions become Lean functions, the process-wide `IMAGE_CACHE` `Map` becomes an
explicit association list threaded through the request handler, and `Date.now()` becomes
an explicit `now : Nat` parameter (milliseconds).
-/

set_option autoImplicit false
set_option maxRecDepth 10000

namespace WSH

/-! ## String helpers -/

/-- True when the pattern list is a prefix of the second list (char-by-char). -/
def isPrefixL : List Char → List Char → Bool
  | [], _ => true
  | _ :: _, [] => false
  | p :: ps, c :: cs => p = c && isPrefixL ps cs

/-- True when the pattern occurs contiguously inside the second list.
Embeds JavaScript `String.prototype.includes`. -/
def containsL (pat : List Char) : List Char → Bool
  | [] => isPrefixL pat []
  | c :: rest => isPrefixL pat (c :: rest) || containsL pat rest

/-- JavaScript `s.includes(pat)`. -/
def strIncludes (s pat : String) : Bool := containsL pat.data s.data

/-- JavaScript `s.startsWith(pat)`. -/
def strStartsWith (s pat : String) : Bool := isPrefixL pat.data s.data

/-- Index of the last `'.'` in a character list, if any. -/
def lastDot : List Char → Option Nat
  | [] => none
  | c :: cs =>
    match lastDot cs with
    | some i => some (i + 1)
    | none => if c = '.' then some 0 else none

/-- Node's `path.parse(s)` restricted to base names: returns `(name, ext-without-dot)`.
A name with no dot, or a single leading dot, has an empty extension (matching
`path.parse`); the extension of `"a.b.c"` is `"c"`.  The second component already has
the `.slice(1)` applied, as every use site in the source slices off the dot. -/
def splitExt (s : String) : String × String :=
  match lastDot s.data with
  | none => (s, "")
  | some 0 => (s, "")
  | some (i + 1) => (⟨s.data.take (i + 1)⟩, ⟨s.data.drop (i + 2)⟩)

/-- Node's `path.extname(f).slice(1)` (for base names). -/
def pathExt (f : String) : String := (splitExt f).2

/-! ## Supported formats (source: `SUPPORTED_IMAGE_EXTENSIONS`, `IMAGE_MIME_TYPE`) -/

def SUPPORTED_IMAGE_EXTENSIONS : List String := ["jxl", "avif", "webp", "png", "jpeg", "jpg"]

/-- Source: `isSupportedImageFormat`. -/
def isSupportedImageFormat (ext : String) : Bool := SUPPORTED_IMAGE_EXTENSIONS.contains ext

/-- Source: `IMAGE_MIME_TYPE` record (total function; unsupported tags are never looked
up by the source, the catch-all branch is arbitrary). -/
def IMAGE_MIME_TYPE (ext : String) : String :=
  if ext = "avif" then "image/avif"
  else if ext = "jpeg" then "image/jpeg"
  else if ext = "jpg" then "image/jpeg"
  else if ext = "jxl" then "image/jxl"
  else if ext = "png" then "image/png"
  else if ext = "webp" then "image/webp"
  else ""

/-! ## The response cache (source: `IMAGE_CACHE`, `MAX_CACHE_SIZE`, `CACHE_TTL`,
`evictOldestEntry`).  The JS `Map` is modelled as an association list in insertion
order; `Map.set` on an existing key updates the value in place (keeping the position),
as in JS; `Map.delete` removes the key. The JS string key
`` `${id}_${fmt}_${w ?? 'auto'}_${h ?? 'auto'}` `` is modelled as a structured
quadruple; the encoding is injective on the keys the handler builds (validated image
ids contain only `[a-f0-9-]`, formats come from `SUPPORTED_IMAGE_EXTENSIONS`, and the
width/height components are decimal digits or `auto`, so no component contains `_`). -/

/-- Transcoded payload bytes, represented symbolically by their provenance:
target format, origin file and output dimensions. -/
inductive ByteData where
  | encoded (fmt : String) (srcFile : String) (w h : Nat)
deriving DecidableEq

structure CacheKey where
  imageId : String
  fmt : String
  width : Option Nat
  height : Option Nat
deriving DecidableEq

structure CacheEntry where
  data : ByteData
  mimeType : String
  timestamp : Nat
deriving DecidableEq

abbrev Cache := List (CacheKey × CacheEntry)

def MAX_CACHE_SIZE : Nat := 100

def CACHE_TTL : Nat := 60 * 60 * 1000

/-- JS `Map.get`. -/
def mapGet (c : Cache) (k : CacheKey) : Option CacheEntry :=
  (c.find? (fun kv => decide (kv.1 = k))).map (fun kv => kv.2)

/-- JS `Map.set` (insertion order preserved; existing key updated in place). -/
def mapSet (c : Cache) (k : CacheKey) (v : CacheEntry) : Cache :=
  if (c.find? (fun kv => decide (kv.1 = k))).isSome then
    c.map (fun kv => if kv.1 = k then (k, v) else kv)
  else
    c ++ [(k, v)]

/-- JS `Map.delete`. -/
def mapDelete (c : Cache) (k : CacheKey) : Cache :=
  c.filter (fun kv => decide (kv.1 ≠ k))

/-- JS `Map.size`. -/
def cacheSize (c : Cache) : Nat := c.length

/-- Source: `evictOldestEntry`.  Scans all entries keeping the strictly smallest
timestamp seen so far, starting from `oldestTime = Date.now()`; deletes the found key
(the JS guard `if (oldestKey)` is a null check — handler-built keys are never the empty
string, as each contains `_`). -/
def evictOldestEntry (now : Nat) (c : Cache) : Cache :=
  match (c.foldl
      (fun (acc : Option CacheKey × Nat) kv =>
        if kv.2.timestamp < acc.2 then (some kv.1, kv.2.timestamp) else acc)
      (none, now)).1 with
  | some k => mapDelete c k
  | none => c

/-- Cache-population step of the handler (source: lines
`if (IMAGE_CACHE.size >= MAX_CACHE_SIZE) { evictOldestEntry(); } IMAGE_CACHE.set(...)`). -/
def cacheInsert (now : Nat) (c : Cache) (k : CacheKey) (e : CacheEntry) : Cache :=
  mapSet (if MAX_CACHE_SIZE ≤ cacheSize c then evictOldestEntry now c else c) k e

/-- The handler's cache lookup (source:
`const cached = IMAGE_CACHE.get(cacheKey); if (cached && (Date.now() - cached.timestamp) < CACHE_TTL)`). -/
def cacheGet (c : Cache) (k : CacheKey) (now : Nat) : Option CacheEntry :=
  match mapGet c k with
  | some e => if now - e.timestamp < CACHE_TTL then some e else none
  | none => none

/-! ## Resize math (source: the `scale` / `Math.ceil` lines of the handler) -/

/-- Source: `const scale = Math.max((w ?? 0) / image.width, (h ?? 0) / image.height) || 1;`.
With natural query parameters and positive image dimensions the `Math.max` argument is a
finite nonnegative number, so JS `|| 1` fires exactly when it is `0`. -/
def computeScale (w h : Option Nat) (W H : Nat) : ℚ :=
  if max ((w.getD 0 : ℚ) / (W : ℚ)) ((h.getD 0 : ℚ) / (H : ℚ)) = 0 then 1
  else max ((w.getD 0 : ℚ) / (W : ℚ)) ((h.getD 0 : ℚ) / (H : ℚ))

/-- JS `Math.ceil` on a nonnegative rational, landing in `Nat`
(executable; agrees with `⌈q⌉₊`, see `jsCeil_eq_natCeil`). -/
def jsCeil (q : ℚ) : Nat := (q.num.toNat + q.den - 1) / q.den

/-- Source: `width: Math.ceil(image.width * scale)`. -/
def outputWidth (w h : Option Nat) (W H : Nat) : Nat :=
  jsCeil ((W : ℚ) * computeScale w h W H)

/-- Source: `height: Math.ceil(image.height * scale)`. -/
def outputHeight (w h : Option Nat) (W H : Nat) : Nat :=
  jsCeil ((H : ℚ) * computeScale w h W H)

/-! ## The asset store and the request -/

/-- The flat directory of origin assets (`IMAGES_PATH`): file base names in a stable
order (the single-match glob resolves to the first match), plus the decoded pixel
dimensions of each file (`new Image(decode(bytes))` yields `image.width/height`). -/
structure Store where
  files : List String
  dims : String → Nat × Nat

/-- One `GET /images/:imageFile` request after boundary validation: the path segment,
the three query parameters (`z.coerce.number().optional()` restricted to the
spec's non-negative integers) and the `Accept` header. -/
structure ImgRequest where
  imageFile : String
  format : Option String
  width : Option Nat
  height : Option Nat
  accept : String

/-- JS truthiness test `!c.req.valid('query').format`: true when the parameter is
absent or the empty string. -/
def jsFalsyStr : Option String → Bool
  | none => true
  | some s => s = ""

/-- Source: `const acceptsWebP = acceptHeader.includes('image/webp');`. -/
def acceptsWebP (accept : String) : Bool := strIncludes accept "image/webp"

/-- Source: the format-negotiation block of the handler,
`let resImgFormat = query.format ?? reqImgExt.slice(1);` followed by the
`if (!query.format && acceptsWebP && resImgFormat !== 'webp') { fs.access(id.webp) … }`
upgrade.  `fs.access` succeeds exactly when `<id>.webp` is a file of the store. -/
def resolveFormat (store : Store) (format : Option String) (ext : String)
    (accept : String) (id : String) : String :=
  let r := format.getD ext
  if jsFalsyStr format && acceptsWebP accept && decide (r ≠ "webp")
      && store.files.contains (id ++ ".webp") then
    "webp"
  else r

def reqImgId (req : ImgRequest) : String := (splitExt req.imageFile).1

def reqImgExt (req : ImgRequest) : String := (splitExt req.imageFile).2

/-- The resolved target format of a request (`resImgFormat` after negotiation). -/
def negotiated (store : Store) (req : ImgRequest) : String :=
  resolveFormat store req.format (reqImgExt req) req.accept (reqImgId req)

/-- Source: the glob `[resolve(IMAGES_PATH, id), resolve(IMAGES_PATH, `id.*`)]` and
`const [origFilePath] = await globby(...)`: the first file equal to `id` or starting
with `id.`. -/
def findOrigin (store : Store) (id : String) : Option String :=
  store.files.find? (fun f => decide (f = id) || strStartsWith f (id ++ "."))

/-- Source: `` const cacheKey = `${id}_${fmt}_${w ?? 'auto'}_${h ?? 'auto'}` ``. -/
def reqCacheKey (store : Store) (req : ImgRequest) : CacheKey :=
  ⟨reqImgId req, negotiated store req, req.width, req.height⟩

/-! ## The request handler (source: `app.get('/images/:imageFile', …)`) -/

/-- The response body. -/
inductive RespBody where
  | streamFile (path : String)
  | bytes (b : ByteData)
  | empty
deriving DecidableEq

/-- Status, the headers the handler sets, the body, and the cache after the request. -/
structure HandlerResult where
  status : Nat
  contentType : Option String
  xCache : Option String
  vary : Bool
  body : RespBody
  cache : Cache
deriving DecidableEq

/-- Modelled from the spec: the converter implementations (`image-converters/…`) are
referenced by the handler but are not under `src/`.  §4.1 specifies that `encode`
fails with `EncodeError` on invalid (zero or negative) buffer dimensions; a codec
failure surfaces as an internal error, HTTP 500 (§6).  Encoded bytes are represented
by their provenance (`ByteData.encoded`). -/
def encodeFails (w h : Nat) : Bool := decide (w = 0) || decide (h = 0)

/-- Transcode branch of the handler: decode the origin, resize, encode (see
`encodeFails`), insert into the cache, answer `X-Cache: MISS`. -/
def transcode (store : Store) (c : Cache) (now : Nat) (req : ImgRequest) (f : String) :
    HandlerResult :=
  let fmt := negotiated store req
  let W := (store.dims f).1
  let H := (store.dims f).2
  let outW := outputWidth req.width req.height W H
  let outH := outputHeight req.width req.height W H
  if encodeFails outW outH then ⟨500, none, none, false, .empty, c⟩
  else
    ⟨200, some (IMAGE_MIME_TYPE fmt), some "MISS",
      decide (fmt = "webp") && jsFalsyStr req.format,
      .bytes (.encoded fmt f outW outH),
      cacheInsert now c (reqCacheKey store req) ⟨.encoded fmt f outW outH, IMAGE_MIME_TYPE fmt, now⟩⟩

/-- The full request handler, in source order: 501 on an unsupported resolved format;
404 when the glob finds nothing; 500 when the origin's own extension is unsupported;
the pre-existing-WebP bypass (`Vary: Accept` always set there); the cache lookup
(`X-Cache: HIT`, `Vary` only for negotiated webp); the equal-format bypass
(`X-Cache: BYPASS`, no `Vary`); else transcode. -/
def imageApp (store : Store) (c : Cache) (now : Nat) (req : ImgRequest) : HandlerResult :=
  let fmt := negotiated store req
  if isSupportedImageFormat fmt then
    match findOrigin store (reqImgId req) with
    | none => ⟨404, none, none, false, .empty, c⟩
    | some f =>
      if isSupportedImageFormat (pathExt f) then
        if fmt = "webp" ∧ pathExt f = "webp" ∧ req.width = none ∧ req.height = none then
          ⟨200, some "image/webp", some "BYPASS", true, .streamFile f, c⟩
        else
          match cacheGet c (reqCacheKey store req) now with
          | some e =>
            ⟨200, some e.mimeType, some "HIT",
              decide (fmt = "webp") && jsFalsyStr req.format, .bytes e.data, c⟩
          | none =>
            if fmt = pathExt f ∧ req.width = none ∧ req.height = none then
              ⟨200, some (IMAGE_MIME_TYPE fmt), some "BYPASS", false, .streamFile f, c⟩
            else transcode store c now req f
      else ⟨500, none, none, false, .empty, c⟩
  else ⟨501, none, none, false, .empty, c⟩

/-- Run a list of timestamped requests against the process-wide cache. -/
def runTraceFrom (store : Store) (c : Cache) : List (Nat × ImgRequest) → Cache
  | [] => c
  | s :: rest => runTraceFrom store (imageApp store c s.1 s.2).cache rest

/-- Cache state after a sequence of requests, starting from the empty cache the
process boots with. -/
def runTrace (store : Store) (tr : List (Nat × ImgRequest)) : Cache :=
  runTraceFrom store [] tr

/-! ## Compression middleware (source: `compressMiddleware`) -/

/-- A body chunk flowing through the response stream: raw bytes, or the result of
`ZstdStream.compress(chunk, level, false)` represented symbolically. -/
inductive CompChunk where
  | raw (bytes : List Nat)
  | zstd (level : Nat) (bytes : List Nat)
deriving DecidableEq

/-- The outgoing response as the middleware sees it after `await next()`:
`Content-Type` (JS `|| ''` already applied by the source read), the numeric value of
the `Content-Length` header (`parseInt(header || '0')`: `none` models an absent
header, which parses to `0`), `Content-Encoding`, the list of appended
`Cache-Control` values, and the body chunks. -/
structure CResponse where
  contentType : String
  contentLength : Option Nat
  contentEncoding : Option String
  cacheControl : List String
  body : List CompChunk
deriving DecidableEq

/-- Source: the compression-level selection inside the `'zstd'` case. -/
def compressionLevel (ct : String) : Nat :=
  if strIncludes ct "json" || strIncludes ct "javascript" || strIncludes ct "css" then 6
  else if strIncludes ct "html" then 5
  else 3

/-- Source: `compressMiddleware`.  `acceptZstd` is the result of
`encoding(req.header('Accept-Encoding'), ['zstd']) === 'zstd'` (the only supported
scheme; the `@hapi/accept` negotiation itself is an external collaborator). -/
def compressMiddleware (acceptZstd : Bool) (r : CResponse) : CResponse :=
  let contentLength := r.contentLength.getD 0
  if 0 < contentLength ∧ contentLength < 1024 then
    { r with cacheControl := r.cacheControl ++ ["no-transform"] }
  else if strStartsWith r.contentType "image/" then
    { r with cacheControl := r.cacheControl ++ ["no-transform"] }
  else if acceptZstd then
    { r with
      body := r.body.map (fun ch =>
        match ch with
        | .raw b => .zstd (compressionLevel r.contentType) b
        | other => other),
      contentLength := none,
      cacheControl := r.cacheControl ++ ["no-transform"],
      contentEncoding := some "zstd" }
  else
    { r with cacheControl := r.cacheControl ++ ["no-transform"] }

/-! ## Cache-Control middleware (source: `cacheControlMiddleware`) -/

/-- Source: `cacheControlMiddleware`.  Returns the single value that
`c.res.headers.set('Cache-Control', …)` installs (`set` replaces any prior value,
so exactly one value remains). -/
def cacheControlMiddleware (url ct : String) : String :=
  if strStartsWith ct "image/" || strIncludes url "/images/" || strIncludes url "/assets/" then
    "public, max-age=31536000, immutable"
  else if strIncludes ct "javascript" || strIncludes ct "css" then
    "public, max-age=31536000, immutable"
  else if strIncludes ct "json" || strIncludes ct "html" then
    "private, max-age=0, must-revalidate"
  else
    "private, no-store"

/-! ## Spec-side definitions (written from the wording of the claims, for
refinement comparisons) -/

/-- Claim C1's scale: `max(targetWidth / originWidth, targetHeight / originHeight)`
with an absent target dimension contributing `0` to the max, and `scale = 1` when both
are absent. -/
def specScaleC1 (w h : Option Nat) (W H : Nat) : ℚ :=
  if w = none ∧ h = none then 1
  else max ((w.getD 0 : ℚ) / (W : ℚ)) ((h.getD 0 : ℚ) / (H : ℚ))

/-- Amended C1 scale: as `specScaleC1`, except that `scale = 1` whenever the
max-of-ratios evaluates to `0`, i.e. when each target dimension is absent or zero. -/
def specScaleC1Amended (w h : Option Nat) (W H : Nat) : ℚ :=
  if max ((w.getD 0 : ℚ) / (W : ℚ)) ((h.getD 0 : ℚ) / (H : ℚ)) = 0 then 1
  else max ((w.getD 0 : ℚ) / (W : ℚ)) ((h.getD 0 : ℚ) / (H : ℚ))

/-- Claim C5's resolution order: the explicit format parameter when present is used
verbatim; otherwise webp when the Accept header signals webp support, the path-derived
format is not already webp, and the sibling `<id>.webp` exists; otherwise the
path-derived format. -/
def specResolveC5 (store : Store) (format : Option String) (ext : String)
    (accept : String) (id : String) : String :=
  match format with
  | some s => s
  | none =>
    if acceptsWebP accept && decide (ext ≠ "webp") && store.files.contains (id ++ ".webp") then
      "webp"
    else ext

/-- Amended C5 resolution: an explicit, nonempty format parameter is used verbatim; a
present-but-empty parameter replaces the path-derived format as the starting format
but (being JS-falsy) still allows the webp upgrade; from the starting format, webp is
selected when the Accept header signals webp support, the starting format is not
already webp, and the sibling `<id>.webp` exists; otherwise the starting format is
kept. -/
def specResolveC5Amended (store : Store) (format : Option String) (ext : String)
    (accept : String) (id : String) : String :=
  match format with
  | some s =>
    if s = "" then
      if acceptsWebP accept && decide (s ≠ "webp") && store.files.contains (id ++ ".webp") then
        "webp"
      else s
    else s
  | none =>
    if acceptsWebP accept && decide (ext ≠ "webp") && store.files.contains (id ++ ".webp") then
      "webp"
    else ext

/-- Claim C9's classification, with the two long-lived branches merged as the claim
states them. -/
def specCacheControlC9 (url ct : String) : String :=
  if strStartsWith ct "image/" || strIncludes url "/images/" || strIncludes url "/assets/"
      || strIncludes ct "javascript" || strIncludes ct "css" then
    "public, max-age=31536000, immutable"
  else if strIncludes ct "json" || strIncludes ct "html" then
    "private, max-age=0, must-revalidate"
  else
    "private, no-store"

/-- Claim C8's compression levels: 6 for json/javascript/css content types, 5 for
html, 3 for everything else. -/
def specLevelC8 (ct : String) : Nat :=
  if strIncludes ct "json" || strIncludes ct "javascript" || strIncludes ct "css" then 6
  else if strIncludes ct "html" then 5
  else 3

/-! ## Auxiliary definitions for the verification -/

/-- Invariant of every reachable cache state: a key cached for a request without
width/height never carries the physical format of its own origin file (such requests
take a bypass branch and are never inserted). -/
def noBypassKeys (store : Store) (c : Cache) : Prop :=
  ∀ kv ∈ c, kv.1.width = none → kv.1.height = none →
    ∀ f, findOrigin store kv.1.imageId = some f → pathExt f ≠ kv.1.fmt

/-- A cache of `n` distinct-key entries all inserted at clock value `0`, through the
handler's own insertion step. -/
def sameTickKey (i : Nat) : CacheKey := ⟨Nat.repr i, "png", none, none⟩

def sameTickEntry : CacheEntry := ⟨.encoded "png" "f.png" 1 1, "image/png", 0⟩

def sameTickCache (n : Nat) : Cache :=
  (List.range n).foldl (fun c i => cacheInsert 0 c (sameTickKey i) sameTickEntry) []

/-- `jsCeil` computes the mathematical ceiling of a nonnegative rational. -/
theorem jsCeil_eq_natCeil (q : ℚ) (hq : 0 ≤ q) : jsCeil q = ⌈q⌉₊ := by
  have hden : 0 < q.den := q.pos
  have hnum : 0 ≤ q.num := Rat.num_nonneg.mpr hq
  have key : ∀ n : ℕ, jsCeil q ≤ n ↔ q ≤ n := by
    intro n
    unfold jsCeil
    rw [Nat.div_le_iff_le_mul_add_pred hden]
    have h1 : q.num.toNat + q.den - 1 ≤ q.den * n + (q.den - 1) ↔ q.num.toNat ≤ q.den * n := by
      omega
    rw [h1, Rat.le_def, Rat.num_natCast, Rat.den_natCast, Nat.cast_one, mul_one]
    constructor
    · intro h
      have h2 : q.num ≤ ((q.den * n : ℕ) : ℤ) := by omega
      calc q.num ≤ ((q.den * n : ℕ) : ℤ) := h2
        _ = (n : ℤ) * (q.den : ℤ) := by push_cast; ring
    · intro h
      have h2 : q.num ≤ ((q.den * n : ℕ) : ℤ) := by
        calc q.num ≤ (n : ℤ) * (q.den : ℤ) := h
          _ = ((q.den * n : ℕ) : ℤ) := by push_cast; ring
      omega
  have h1 : jsCeil q ≤ ⌈q⌉₊ := (key ⌈q⌉₊).mpr (Nat.le_ceil q)
  have h2 : ⌈q⌉₊ ≤ jsCeil q := Nat.ceil_le.mpr ((key (jsCeil q)).mp le_rfl)
  omega

/-- `jsCeil` of a natural number is that number. -/
theorem jsCeil_natCast (n : Nat) : jsCeil (n : ℚ) = n := by
  rw [jsCeil_eq_natCeil _ (by positivity)]
  exact Nat.ceil_natCast n

/-- `jsCeil` of a positive rational is positive. -/
theorem jsCeil_pos {q : ℚ} (hq : 0 < q) : 0 < jsCeil q := by
  rw [jsCeil_eq_natCeil _ hq.le]
  exact Nat.ceil_pos.mpr hq

/-- The source's scale is never negative. -/
theorem computeScale_nonneg (w h : Option Nat) (W H : Nat) : 0 ≤ computeScale w h W H := by
  unfold computeScale
  split
  · norm_num
  · exact le_max_of_le_left (by positivity)

/-- The source's scale is strictly positive (`|| 1` replaces a zero max by one). -/
theorem computeScale_pos (w h : Option Nat) (W H : Nat) : 0 < computeScale w h W H := by
  unfold computeScale
  split
  · norm_num
  · next hne =>
    rcases lt_or_eq_of_le (le_max_of_le_left (show (0:ℚ) ≤ (w.getD 0 : ℚ) / (W : ℚ) by positivity)) with hlt | heq
    · exact hlt
    · exact absurd heq.symm hne

/-- Membership after a JS `Map.set`. -/
theorem mem_mapSet {c : Cache} {k : CacheKey} {v : CacheEntry} {kv : CacheKey × CacheEntry}
    (h : kv ∈ mapSet c k v) : kv ∈ c ∨ kv = (k, v) := by
  unfold mapSet at h
  split at h
  · obtain ⟨kv0, hkv0, heq⟩ := List.mem_map.mp h
    by_cases hk : kv0.1 = k
    · right
      rw [← heq]
      simp [hk]
    · left
      rw [← heq]
      simpa [hk] using hkv0
  · rcases List.mem_append.mp h with h1 | h1
    · exact Or.inl h1
    · right
      simpa using h1

/-- Membership after a JS `Map.delete`. -/
theorem mem_mapDelete {c : Cache} {k : CacheKey} {kv : CacheKey × CacheEntry}
    (h : kv ∈ mapDelete c k) : kv ∈ c := by
  unfold mapDelete at h
  exact List.mem_of_mem_filter h

/-- Eviction only removes entries. -/
theorem mem_evictOldestEntry {now : Nat} {c : Cache} {kv : CacheKey × CacheEntry}
    (h : kv ∈ evictOldestEntry now c) : kv ∈ c := by
  unfold evictOldestEntry at h
  split at h
  · exact mem_mapDelete h
  · exact h

/-- Membership after the handler's cache-population step. -/
theorem mem_cacheInsert {now : Nat} {c : Cache} {k : CacheKey} {e : CacheEntry}
    {kv : CacheKey × CacheEntry} (h : kv ∈ cacheInsert now c k e) : kv ∈ c ∨ kv = (k, e) := by
  unfold cacheInsert at h
  rcases mem_mapSet h with h1 | h1
  · split at h1
    · exact Or.inl (mem_evictOldestEntry h1)
    · exact Or.inl h1
  · exact Or.inr h1

/-- A successful `Map.get` exhibits a member with the looked-up key. -/
theorem mapGet_some_mem {c : Cache} {k : CacheKey} {e : CacheEntry}
    (h : mapGet c k = some e) : (k, e) ∈ c := by
  unfold mapGet at h
  cases hf : c.find? (fun kv => decide (kv.1 = k)) with
  | none => rw [hf] at h; cases h
  | some kv =>
    rw [hf] at h
    have hm := List.mem_of_find?_eq_some hf
    have hp := List.find?_some hf
    simp only [decide_eq_true_eq] at hp
    simp only [Option.map] at h
    have hkv : kv = (k, e) := by
      cases h
      rw [← hp]
    rw [hkv] at hm
    exact hm

/-- A request whose lookup hits a fresh entry leaves the cache untouched (the hit
branch of the handler only reads). -/
theorem imageApp_cache_of_hit (store : Store) (c : Cache) (now : Nat) (req : ImgRequest)
    (e : CacheEntry) (hhit : cacheGet c (reqCacheKey store req) now = some e) :
    (imageApp store c now req).cache = c := by
  simp only [imageApp]
  split
  · split
    · rfl
    · split
      · split
        · rfl
        · split
          · rfl
          · next heq =>
            rw [hhit] at heq
            cases heq
      · rfl
  · rfl

/-- The handler preserves the reachable-cache invariant `noBypassKeys`. -/
theorem noBypassKeys_imageApp (store : Store) (c : Cache) (now : Nat) (req : ImgRequest)
    (h : noBypassKeys store c) : noBypassKeys store (imageApp store c now req).cache := by
  simp only [imageApp]
  split
  · split
    · exact h
    · next f hfind =>
      split
      · split
        · exact h
        · split
          · exact h
          · split
            · exact h
            · next hnb =>
              simp only [transcode]
              split
              · exact h
              · intro kv hkv hw hh f2 hf2
                rcases mem_cacheInsert hkv with hin | hkv_eq
                · exact h kv hin hw hh f2 hf2
                · subst hkv_eq
                  simp only [reqCacheKey] at hw hh hf2 ⊢
                  rw [hfind] at hf2
                  cases hf2
                  intro hcontra
                  exact hnb ⟨hcontra.symm, hw, hh⟩
      · exact h
  · exact h

/-- The empty cache satisfies the invariant. -/
theorem noBypassKeys_nil (store : Store) : noBypassKeys store [] := by
  intro kv hkv
  cases hkv

/-- The invariant holds along any trace. -/
theorem noBypassKeys_runTraceFrom (store : Store) (tr : List (Nat × ImgRequest)) :
    ∀ c, noBypassKeys store c → noBypassKeys store (runTraceFrom store c tr) := by
  induction tr with
  | nil => intro c h; exact h
  | cons s rest ih =>
    intro c h
    exact ih _ (noBypassKeys_imageApp store c s.1 s.2 h)

/-- Every reachable cache state satisfies the invariant. -/
theorem noBypassKeys_runTrace (store : Store) (tr : List (Nat × ImgRequest)) :
    noBypassKeys store (runTrace store tr) :=
  noBypassKeys_runTraceFrom store tr [] (noBypassKeys_nil store)

/-! ## Claim theorems -/

/-- C1 (counterexample): the claim's formula — scale = max of the ratios, with only
*absence* of both target dimensions forcing scale 1 — fails on an explicit `width=0`
request against a 200×200 origin: the code's `|| 1` makes the scale 1 and keeps the
origin's 200-pixel width, while the claimed formula gives scale 0, hence ceil(200·0)=0. -/
theorem C1_resize_counterexample :
    outputWidth (some 0) none 200 200 = 200 ∧
    ⌈(200 : ℚ) * specScaleC1 (some 0) none 200 200⌉₊ = 0 := by
  constructor
  · have hs : computeScale (some 0) none 200 200 = 1 := by
      unfold computeScale
      norm_num
    unfold outputWidth
    rw [hs, mul_one, jsCeil_natCast]
  · have hs : specScaleC1 (some 0) none 200 200 = 0 := by
      unfold specScaleC1
      rw [if_neg (by simp)]
      norm_num
    rw [hs, mul_zero]
    simp

/-- C1 (amended): for every decoded origin of positive dimensions W×H, the output
dimensions are `ceil(W*scale)` and `ceil(H*scale)` where
`scale = max(targetWidth/W, targetHeight/H)` (absent dimension contributing 0),
except that `scale = 1` whenever that max evaluates to 0 — i.e. when each target
dimension is absent or zero; in particular a 200×200 origin requested at
width=100, height=50 yields a 100×100 output, not 100×50. -/
theorem C1_resize_amended (w h : Option Nat) (W H : Nat) (hW : 0 < W) (hH : 0 < H) :
    (outputWidth w h W H = ⌈(W : ℚ) * specScaleC1Amended w h W H⌉₊ ∧
     outputHeight w h W H = ⌈(H : ℚ) * specScaleC1Amended w h W H⌉₊) ∧
    (outputWidth (some 100) (some 50) 200 200 = 100 ∧
     outputHeight (some 100) (some 50) 200 200 = 100) := by
  have hcs : ∀ (w h : Option Nat) (W H : Nat),
      computeScale w h W H = specScaleC1Amended w h W H := fun _ _ _ _ => rfl
  have hhalf : computeScale (some 100) (some 50) 200 200 = 1 / 2 := by
    unfold computeScale
    norm_num [max_def]
  have h100 : ((200 : Nat) : ℚ) * computeScale (some 100) (some 50) 200 200
      = ((100 : Nat) : ℚ) := by
    rw [hhalf]
    norm_num
  refine ⟨⟨?_, ?_⟩, ?_, ?_⟩
  · unfold outputWidth
    rw [← hcs, jsCeil_eq_natCeil]
    exact mul_nonneg (by positivity) (computeScale_nonneg w h W H)
  · unfold outputHeight
    rw [← hcs, jsCeil_eq_natCeil]
    exact mul_nonneg (by positivity) (computeScale_nonneg w h W H)
  · unfold outputWidth
    rw [h100, jsCeil_natCast]
  · unfold outputHeight
    rw [h100, jsCeil_natCast]

/-- C1 witness: the amended theorem applied to the 200×200 origin of the claim. -/
theorem C1_resize_witness :
    outputWidth (some 100) (some 50) 200 200 = 100 ∧
    outputHeight (some 100) (some 50) 200 200 = 100 :=
  (C1_resize_amended (some 100) (some 50) 200 200 (by decide) (by decide)).2

/-- C5 (counterexample): with a present-but-empty `format` parameter, a `.png` path,
an Accept header containing `image/webp` and an existing `<id>.webp` sibling, the code
negotiates `webp` (the empty string is JS-falsy), while the claim's resolution — use
the explicit parameter verbatim whenever present — yields the empty format. -/
theorem C5_negotiation_counterexample :
    resolveFormat ⟨["abc.png", "abc.webp"], fun _ => (1, 1)⟩ (some "") "png" "image/webp" "abc"
      = "webp" ∧
    specResolveC5 ⟨["abc.png", "abc.webp"], fun _ => (1, 1)⟩ (some "") "png" "image/webp" "abc"
      = "" := by
  constructor
  · decide
  · decide

/-- C5 (amended): the target format is the explicit format parameter when present and
nonempty; otherwise, starting from the present-but-empty parameter value (JS-falsy)
or, when absent, the path-derived format, it is webp when the Accept header signals
webp support, the starting format is not already webp, and the sibling `<id>.webp`
exists in the asset store; otherwise the starting format. -/
theorem C5_negotiation_amended (store : Store) (format : Option String)
    (ext accept id : String) :
    resolveFormat store format ext accept id = specResolveC5Amended store format ext accept id := by
  unfold resolveFormat specResolveC5Amended jsFalsyStr
  cases format with
  | none => simp
  | some s =>
    by_cases hs : s = ""
    · subst hs
      simp
    · simp [hs]

/-- C8 (counterexample): a response declaring `Content-Length: 0` — a known length
below 1024 — is nevertheless compressed when the client accepts zstd (the source's
`contentLength > 0` guard conflates a declared zero length with an absent header),
while the claim requires it to be left untouched. -/
theorem C8_compression_counterexample :
    (compressMiddleware true ⟨"application/json", some 0, none, [], [.raw [1, 2]]⟩).contentEncoding
      = some "zstd" ∧
    (compressMiddleware true ⟨"application/json", some 0, none, [], [.raw [1, 2]]⟩).body
      ≠ [.raw [1, 2]] := by
  constructor
  · decide
  · decide

/-- C8 (amended): the compression stage applies its rules in order with
short-circuiting — a response whose declared body length is known, *nonzero* and below
1024 bytes, or whose content type begins with `image/`, or for which no
accept-encoding matches zstd, is left byte-for-byte untouched and marked
`Cache-Control: no-transform`; otherwise the body chunks are zstd-compressed at level
6 for json/javascript/css content types, 5 for html, 3 otherwise, the
`Content-Length` header is removed and `Content-Encoding: zstd` is set. -/
theorem C8_compression_rules (az : Bool) (r : CResponse) :
    (∀ n, r.contentLength = some n → 0 < n → n < 1024 →
        compressMiddleware az r
          = { r with cacheControl := r.cacheControl ++ ["no-transform"] }) ∧
    (¬ (0 < r.contentLength.getD 0 ∧ r.contentLength.getD 0 < 1024) →
      strStartsWith r.contentType "image/" = true →
        compressMiddleware az r
          = { r with cacheControl := r.cacheControl ++ ["no-transform"] }) ∧
    (¬ (0 < r.contentLength.getD 0 ∧ r.contentLength.getD 0 < 1024) →
      strStartsWith r.contentType "image/" = false → az = false →
        compressMiddleware az r
          = { r with cacheControl := r.cacheControl ++ ["no-transform"] }) ∧
    (¬ (0 < r.contentLength.getD 0 ∧ r.contentLength.getD 0 < 1024) →
      strStartsWith r.contentType "image/" = false → az = true →
        compressMiddleware az r
          = { r with
              body := r.body.map (fun ch =>
                match ch with
                | .raw b => .zstd (specLevelC8 r.contentType) b
                | other => other),
              contentLength := none,
              cacheControl := r.cacheControl ++ ["no-transform"],
              contentEncoding := some "zstd" }) := by
  refine ⟨?_, ?_, ?_, ?_⟩
  · intro n hn h0 h1024
    simp only [compressMiddleware, hn, Option.getD_some]
    rw [if_pos ⟨h0, h1024⟩]
  · intro hbig himg
    simp only [compressMiddleware]
    rw [if_neg hbig, if_pos himg]
  · intro hbig himg haz
    subst haz
    simp only [compressMiddleware]
    rw [if_neg hbig, if_neg (by simp [himg]), if_neg (by simp)]
  · intro hbig himg haz
    subst haz
    simp only [compressMiddleware]
    rw [if_neg hbig, if_neg (by simp [himg]), if_pos trivial]
    rfl

/-- C8 witness: the amended theorem applied to a 500-byte JSON response (never
compressed, regardless of accept-encoding) — rule 1 at a concrete input. -/
theorem C8_compression_witness :
    compressMiddleware true ⟨"application/json", some 500, none, [], [.raw [7]]⟩
      = { contentType := "application/json", contentLength := some 500,
          contentEncoding := none, cacheControl := ["no-transform"],
          body := [.raw [7]] } :=
  (C8_compression_rules true ⟨"application/json", some 500, none, [], [.raw [7]]⟩).1
    500 rfl (by decide) (by decide)

/-- C9: the Cache-Control stage sets exactly one value on every response —
`public, max-age=31536000, immutable` for image content types or URLs containing
`/images/` or `/assets/`, and for javascript/css content types;
`private, max-age=0, must-revalidate` for json or html; `private, no-store`
otherwise. -/
theorem C9_cache_control (url ct : String) :
    cacheControlMiddleware url ct = specCacheControlC9 url ct := by
  unfold cacheControlMiddleware specCacheControlC9
  cases h1 : strStartsWith ct "image/" <;>
    cases h2 : strIncludes url "/images/" <;>
      cases h3 : strIncludes url "/assets/" <;>
        cases h4 : strIncludes ct "javascript" <;>
          cases h5 : strIncludes ct "css" <;>
            simp

/-- C10: a transcoded request whose width and height are each absent or explicitly 0
gets scale factor 1 (not the max-of-ratios value 0): the output keeps the origin's
exact positive dimensions, so the encoder's zero-dimension failure branch
(`encodeFails`) is unreachable for such requests. -/
theorem C10_zero_params_scale_one (w h : Option Nat) (W H : Nat) (hW : 0 < W) (hH : 0 < H)
    (hw : w = none ∨ w = some 0) (hh : h = none ∨ h = some 0) :
    computeScale w h W H = 1 ∧ outputWidth w h W H = W ∧ outputHeight w h W H = H ∧
    encodeFails (outputWidth w h W H) (outputHeight w h W H) = false := by
  have hw0 : ((w.getD 0 : Nat) : ℚ) = 0 := by rcases hw with rfl | rfl <;> simp
  have hh0 : ((h.getD 0 : Nat) : ℚ) = 0 := by rcases hh with rfl | rfl <;> simp
  have hs : computeScale w h W H = 1 := by
    unfold computeScale
    rw [hw0, hh0]
    simp
  have hwidth : outputWidth w h W H = W := by
    unfold outputWidth
    rw [hs, mul_one, jsCeil_natCast]
  have hheight : outputHeight w h W H = H := by
    unfold outputHeight
    rw [hs, mul_one, jsCeil_natCast]
  refine ⟨hs, hwidth, hheight, ?_⟩
  unfold encodeFails
  rw [hwidth, hheight]
  simp only [Bool.or_eq_false_iff, decide_eq_false_iff_not]
  omega

/-- The encoder's zero-dimension failure cannot fire on a positive-dimension origin. -/
theorem encodeFails_false_of_pos (w h : Option Nat) (W H : Nat) (hW : 0 < W) (hH : 0 < H) :
    encodeFails (outputWidth w h W H) (outputHeight w h W H) = false := by
  have hWq : (0 : ℚ) < (W : ℚ) := by exact_mod_cast hW
  have hHq : (0 : ℚ) < (H : ℚ) := by exact_mod_cast hH
  have h1 : 0 < outputWidth w h W H := by
    unfold outputWidth
    exact jsCeil_pos (mul_pos hWq (computeScale_pos w h W H))
  have h2 : 0 < outputHeight w h W H := by
    unfold outputHeight
    exact jsCeil_pos (mul_pos hHq (computeScale_pos w h W H))
  unfold encodeFails
  simp only [Bool.or_eq_false_iff, decide_eq_false_iff_not]
  omega

/-- Every terminal branch of the handler either answers 200 or leaves the cache
untouched. -/
theorem imageApp_error_cache (store : Store) (c : Cache) (now : Nat) (req : ImgRequest) :
    (imageApp store c now req).status = 200 ∨ (imageApp store c now req).cache = c := by
  simp only [imageApp]
  split
  · split
    · right; rfl
    · split
      · split
        · left; rfl
        · split
          · left; rfl
          · split
            · left; rfl
            · simp only [transcode]
              split
              · right; rfl
              · left; rfl
      · right; rfl
  · right; rfl

/-- When the resolved format is supported, the origin exists and its extension is
supported, the handler answers 200 (given positive decoded dimensions). -/
theorem imageApp_status_200 (store : Store) (c : Cache) (now : Nat) (req : ImgRequest)
    (f : String) (hdimW : 0 < (store.dims f).1) (hdimH : 0 < (store.dims f).2)
    (hsup : isSupportedImageFormat (negotiated store req) = true)
    (hfind : findOrigin store (reqImgId req) = some f)
    (hfsup : isSupportedImageFormat (pathExt f) = true) :
    (imageApp store c now req).status = 200 := by
  simp only [imageApp, hsup, hfind, hfsup]
  simp only [if_true]
  split
  · rfl
  · split
    · rfl
    · split
      · rfl
      · simp only [transcode,
          encodeFails_false_of_pos req.width req.height _ _ hdimW hdimH]
        rfl

/-- C10 witness: the theorem applied to a 7×5 origin with `width=0` and absent
height. -/
theorem C10_zero_params_witness :
    computeScale (some 0) none 7 5 = 1 ∧ outputWidth (some 0) none 7 5 = 7 ∧
    outputHeight (some 0) none 7 5 = 5 ∧
    encodeFails (outputWidth (some 0) none 7 5) (outputHeight (some 0) none 7 5) = false :=
  C10_zero_params_scale_one (some 0) none 7 5 (by decide) (by decide)
    (Or.inr rfl) (Or.inl rfl)

/-- C2 (code bug): a sequence of 101 insertions with distinct keys, all at the same
clock value (timestamps equal to the current `Date.now()`), ends with 101 entries —
above `MAX_CACHE_SIZE = 100`: the eviction scan initialises its minimum with
`Date.now()` and uses a strict comparison, so no entry is strictly older and nothing
is evicted, while `Map.set` still adds the new key. -/
theorem C2_capacity_code_bug :
    MAX_CACHE_SIZE = 100 ∧ cacheSize (sameTickCache 101) = 101 := by
  constructor
  · rfl
  · decide

/-- C3 (code bug): eviction on a non-empty cache whose (unique, hence globally
oldest) entry was inserted at the current clock value removes nothing at all —
`evictOldestEntry` initialises `oldestTime` to `Date.now()` and compares strictly,
so an entry whose `insertedAt` equals the current time is never selected. -/
theorem C3_evict_code_bug :
    sameTickCache 1 ≠ [] ∧ evictOldestEntry 0 (sameTickCache 1) = sameTickCache 1 := by
  constructor
  · decide
  · decide

/-- C4: (1) a lookup of an entry at least `CACHE_TTL` past its `insertedAt` is a miss
while the entry stays structurally present with its timestamp unchanged; (2) a request
whose lookup hits leaves the cache exactly as it was; (3) hence N repeated reads, for
any N, leave the cache — and so every entry's expiry point — unchanged. -/
theorem C4_lookup_pure :
    (∀ (c : Cache) (k : CacheKey) (e : CacheEntry) (now : Nat),
        mapGet c k = some e → e.timestamp + CACHE_TTL ≤ now →
        cacheGet c k now = none ∧ mapGet c k = some e) ∧
    (∀ (store : Store) (c : Cache) (now : Nat) (req : ImgRequest) (e : CacheEntry),
        cacheGet c (reqCacheKey store req) now = some e →
        (imageApp store c now req).cache = c) ∧
    (∀ (store : Store) (c : Cache) (now : Nat) (req : ImgRequest) (e : CacheEntry) (N : Nat),
        cacheGet c (reqCacheKey store req) now = some e →
        (fun c0 => (imageApp store c0 now req).cache)^[N] c = c) := by
  refine ⟨?_, ?_, ?_⟩
  · intro c k e now hget hold
    refine ⟨?_, hget⟩
    have hlt : ¬ (now - e.timestamp < CACHE_TTL) := by
      simp only [CACHE_TTL] at hold ⊢
      omega
    unfold cacheGet
    rw [hget]
    show (if now - e.timestamp < CACHE_TTL then some e else none) = none
    rw [if_neg hlt]
  · intro store c now req e hhit
    exact imageApp_cache_of_hit store c now req e hhit
  · intro store c now req e N hhit
    induction N with
    | zero => rfl
    | succ n ih =>
      rw [Function.iterate_succ_apply', ih]
      exact imageApp_cache_of_hit store c now req e hhit

/-- C4 witness: a concrete single-entry cache, read repeatedly at `T+ε` and looked up
at `T+TTL`. -/
theorem C4_lookup_pure_witness :
    cacheGet [(⟨"ab", "png", none, none⟩, ⟨.encoded "png" "ab.png" 1 1, "image/png", 0⟩)]
        ⟨"ab", "png", none, none⟩ 3600000 = none ∧
    mapGet [(⟨"ab", "png", none, none⟩, ⟨.encoded "png" "ab.png" 1 1, "image/png", 0⟩)]
        ⟨"ab", "png", none, none⟩
      = some ⟨.encoded "png" "ab.png" 1 1, "image/png", 0⟩ ∧
    (imageApp ⟨["ab.png"], fun _ => (2, 2)⟩
        [(⟨"ab", "png", none, none⟩, ⟨.encoded "png" "ab.png" 1 1, "image/png", 0⟩)] 10
        ⟨"ab.png", some "png", none, none, ""⟩).cache
      = [(⟨"ab", "png", none, none⟩, ⟨.encoded "png" "ab.png" 1 1, "image/png", 0⟩)] ∧
    (fun c0 => (imageApp ⟨["ab.png"], fun _ => (2, 2)⟩ c0 10
        ⟨"ab.png", some "png", none, none, ""⟩).cache)^[5]
        [(⟨"ab", "png", none, none⟩, ⟨.encoded "png" "ab.png" 1 1, "image/png", 0⟩)]
      = [(⟨"ab", "png", none, none⟩, ⟨.encoded "png" "ab.png" 1 1, "image/png", 0⟩)] := by
  refine ⟨(C4_lookup_pure.1
      [(⟨"ab", "png", none, none⟩, ⟨.encoded "png" "ab.png" 1 1, "image/png", 0⟩)]
      ⟨"ab", "png", none, none⟩ ⟨.encoded "png" "ab.png" 1 1, "image/png", 0⟩ 3600000
      (by decide) (by decide)).1, (by decide), ?_, ?_⟩
  · exact C4_lookup_pure.2.1 ⟨["ab.png"], fun _ => (2, 2)⟩
      [(⟨"ab", "png", none, none⟩, ⟨.encoded "png" "ab.png" 1 1, "image/png", 0⟩)] 10
      ⟨"ab.png", some "png", none, none, ""⟩
      ⟨.encoded "png" "ab.png" 1 1, "image/png", 0⟩ (by decide)
  · exact C4_lookup_pure.2.2 ⟨["ab.png"], fun _ => (2, 2)⟩
      [(⟨"ab", "png", none, none⟩, ⟨.encoded "png" "ab.png" 1 1, "image/png", 0⟩)] 10
      ⟨"ab.png", some "png", none, none, ""⟩
      ⟨.encoded "png" "ab.png" 1 1, "image/png", 0⟩ 5 (by decide)

/-- C6 (counterexample): an explicit `format=webp` request for a webp origin takes
the bypass branch and still sets `Vary: Accept`, although the target format was
selected by the explicit parameter, not by negotiation — the claim requires `Vary`
to be absent in that case. -/
theorem C6_bypass_counterexample :
    (imageApp ⟨["abc.webp"], fun _ => (4, 4)⟩ [] 0
        ⟨"abc.webp", some "webp", none, none, ""⟩).vary = true ∧
    (⟨"abc.webp", some "webp", none, none, ""⟩ : ImgRequest).format = some "webp" ∧
    (imageApp ⟨["abc.webp"], fun _ => (4, 4)⟩ [] 0
        ⟨"abc.webp", some "webp", none, none, ""⟩).xCache = some "BYPASS" := by
  refine ⟨?_, rfl, ?_⟩
  · decide
  · decide

/-- C6 (amended): in any execution from the empty cache, a request whose negotiated
format equals the origin's physical format, with neither width nor height given,
answers 200 with `X-Cache: BYPASS`, streams the origin file's bytes, leaves the
response cache untouched (no entry created or returned), and sets `Vary: Accept` if
and only if that format is webp (the webp bypass branch always sets `Vary`, even for
an explicit `format=webp` parameter; the equal-format bypass for other formats never
does). -/
theorem C6_bypass_amended (store : Store) (tr : List (Nat × ImgRequest)) (now : Nat)
    (req : ImgRequest) (f : String)
    (hfind : findOrigin store (reqImgId req) = some f)
    (hsup : isSupportedImageFormat (negotiated store req) = true)
    (hfmt : pathExt f = negotiated store req)
    (hw : req.width = none) (hh : req.height = none) :
    imageApp store (runTrace store tr) now req =
      ⟨200, some (IMAGE_MIME_TYPE (negotiated store req)), some "BYPASS",
        decide (negotiated store req = "webp"), .streamFile f, runTrace store tr⟩ := by
  have hinv := noBypassKeys_runTrace store tr
  have hnoget : mapGet (runTrace store tr) (reqCacheKey store req) = none := by
    cases hg : mapGet (runTrace store tr) (reqCacheKey store req) with
    | none => rfl
    | some e =>
      exfalso
      have hmem := mapGet_some_mem hg
      have hne := hinv _ hmem (by simpa [reqCacheKey] using hw)
        (by simpa [reqCacheKey] using hh) f (by simpa [reqCacheKey] using hfind)
      simp only [reqCacheKey] at hne
      exact hne hfmt
  have hget : cacheGet (runTrace store tr) (reqCacheKey store req) now = none := by
    unfold cacheGet
    rw [hnoget]
  have hfsup : isSupportedImageFormat (pathExt f) = true := by
    rw [hfmt]
    exact hsup
  simp only [imageApp, hsup, hfind, hfsup, if_true]
  by_cases hwebp : negotiated store req = "webp"
  · rw [if_pos ⟨hwebp, by rw [hfmt, hwebp], hw, hh⟩]
    rw [hwebp]
    simp [IMAGE_MIME_TYPE]
  · rw [if_neg (fun hcon => hwebp hcon.1)]
    simp only [hget]
    rw [if_pos ⟨hfmt.symm, hw, hh⟩]
    simp [hwebp]

/-- C6 witness: the amended theorem at a concrete png origin served from a fresh
process (empty trace). -/
theorem C6_bypass_witness :
    imageApp ⟨["abc.png"], fun _ => (4, 4)⟩
        (runTrace ⟨["abc.png"], fun _ => (4, 4)⟩ []) 0 ⟨"abc.png", none, none, none, ""⟩ =
      ⟨200,
        some (IMAGE_MIME_TYPE (negotiated ⟨["abc.png"], fun _ => (4, 4)⟩
          ⟨"abc.png", none, none, none, ""⟩)),
        some "BYPASS",
        decide (negotiated ⟨["abc.png"], fun _ => (4, 4)⟩
          ⟨"abc.png", none, none, none, ""⟩ = "webp"),
        .streamFile "abc.png", runTrace ⟨["abc.png"], fun _ => (4, 4)⟩ []⟩ :=
  C6_bypass_amended ⟨["abc.png"], fun _ => (4, 4)⟩ [] 0 ⟨"abc.png", none, none, none, ""⟩
    "abc.png" (by decide) (by decide) (by decide) rfl rfl

/-- C7 (counterexample): a request with unsupported `format=tiff` for an image id
with no matching file in the store answers 501, not the 404 the claim assigns to a
missing origin — the format check runs before the asset lookup. -/
theorem C7_status_counterexample :
    findOrigin ⟨[], fun _ => (1, 1)⟩ (reqImgId ⟨"abc.png", some "tiff", none, none, ""⟩)
        = none ∧
    (imageApp ⟨[], fun _ => (1, 1)⟩ [] 0 ⟨"abc.png", some "tiff", none, none, ""⟩).status
        = 501 := by
  refine ⟨rfl, ?_⟩
  decide

/-- C7 (amended): every request terminates with exactly one outcome, the checks
running in source order — 501 when the resolved target format is unsupported;
otherwise 404 when no file matches `<imageId>` or `<imageId>.*`; otherwise 500 when
the origin file's extension is not a supported tag; otherwise 200 — and no error
path adds an entry to the response cache. -/
theorem C7_status_amended (store : Store) (c : Cache) (now : Nat) (req : ImgRequest)
    (hdims : ∀ f, 0 < (store.dims f).1 ∧ 0 < (store.dims f).2) :
    (isSupportedImageFormat (negotiated store req) = false →
        (imageApp store c now req).status = 501 ∧ (imageApp store c now req).cache = c) ∧
    (isSupportedImageFormat (negotiated store req) = true →
        findOrigin store (reqImgId req) = none →
        (imageApp store c now req).status = 404 ∧ (imageApp store c now req).cache = c) ∧
    (∀ f, isSupportedImageFormat (negotiated store req) = true →
        findOrigin store (reqImgId req) = some f →
        isSupportedImageFormat (pathExt f) = false →
        (imageApp store c now req).status = 500 ∧ (imageApp store c now req).cache = c) ∧
    (∀ f, isSupportedImageFormat (negotiated store req) = true →
        findOrigin store (reqImgId req) = some f →
        isSupportedImageFormat (pathExt f) = true →
        (imageApp store c now req).status = 200) ∧
    ((imageApp store c now req).status ≠ 200 → (imageApp store c now req).cache = c) := by
  refine ⟨?_, ?_, ?_, ?_, ?_⟩
  · intro h
    constructor <;> simp [imageApp, h]
  · intro hsup hfind
    constructor <;> simp [imageApp, hsup, hfind]
  · intro f hsup hfind hfsup
    constructor <;> simp [imageApp, hsup, hfind, hfsup]
  · intro f hsup hfind hfsup
    exact imageApp_status_200 store c now req f (hdims f).1 (hdims f).2 hsup hfind hfsup
  · intro hne
    rcases imageApp_error_cache store c now req with h200 | hc
    · exact absurd h200 hne
    · exact hc

/-- C7 witness: the amended theorem at the concrete 501-before-404 input. -/
theorem C7_status_witness :
    (imageApp ⟨[], fun _ => (1, 1)⟩ [] 0 ⟨"abc.png", some "tiff", none, none, ""⟩).status
        = 501 ∧
    (imageApp ⟨[], fun _ => (1, 1)⟩ [] 0 ⟨"abc.png", some "tiff", none, none, ""⟩).cache
        = [] :=
  (C7_status_amended ⟨[], fun _ => (1, 1)⟩ [] 0 ⟨"abc.png", some "tiff", none, none, ""⟩
    (fun _ => ⟨Nat.one_pos, Nat.one_pos⟩)).1 (by decide)

end WSH

